import Mathlib

/-!
Verification development for the `notebook_lib` validation core
(`notebook_lib/validators.py`, with the success-message pool and banner
renderer from `notebook_lib/sql_runner.py`).

The embedding is shallow: a pandas `DataFrame` becomes a `Table` (ordered
column names plus rows of cells), Python numbers (int/float) become exact
rationals, `hashlib.sha256(...).hexdigest()` becomes an executable SHA-256
over the UTF-8 bytes of the payload string, and the Python functions
`df_fingerprint`, `make_df_validator_nospoilers`'s inner `validator`,
`check_process_rules` (with its fallible `has` helper modelled in
`Except`, so that the `raise KeyError` branch is an explicit error value)
are translated definition by definition.
-/

/-- A single table cell: missing value, boolean, number (Python int or
float, modelled as an exact rational), or text.  Mirrors the scalar kinds
distinguished by `norm` inside `df_fingerprint`. -/
inductive Cell where
  | na : Cell
  | boolean : Bool → Cell
  | num : ℚ → Cell
  | str : String → Cell
deriving DecidableEq, Repr

/-- A result table: ordered column names and ordered rows of cells
(`α` is `Cell` for caller-facing frames and `String` after the
elementwise `norm` map). -/
structure Table (α : Type) where
  cols : List String
  rows : List (List α)
deriving DecidableEq, Repr

/-- Caller-facing frame, as produced by query execution. -/
abbrev DataFrame := Table Cell

/-- Well-formedness of a real pandas frame: every row has one cell per
column. -/
def Table.WF (df : Table α) : Prop := ∀ r ∈ df.rows, r.length = df.cols.length

instance (df : Table α) : Decidable df.WF := by
  unfold Table.WF; infer_instance

/-! ### Python string helpers -/

/-- Characters treated as whitespace by Python `str.split()` (ASCII range). -/
def isPySpace (c : Char) : Bool :=
  c = ' ' || c = '\t' || c = '\n' || c = '\r' || c = '\x0b' || c = '\x0c'

/-- Accumulating splitter behind `pyWords`: walks the characters, closing
the current word at each whitespace run. -/
def wordsAux : List Char → List Char → List (List Char)
  | [], acc => if acc.isEmpty then [] else [acc.reverse]
  | c :: rest, acc =>
    if isPySpace c then
      if acc.isEmpty then wordsAux rest [] else acc.reverse :: wordsAux rest []
    else wordsAux rest (c :: acc)

/-- Python `s.split()`: split on whitespace runs, dropping empty pieces. -/
def pyWords (s : String) : List String :=
  (wordsAux s.toList []).map (fun cs => String.mk cs)

/-- Python `" ".join(s.split())`: collapse whitespace runs to single
spaces and trim the ends. -/
def wsNormalize (s : String) : String :=
  String.intercalate " " (pyWords s)

/-- Python `s.lower()` (ASCII letters; the queries checked are ASCII). -/
def pyLower (s : String) : String :=
  String.mk (s.toList.map Char.toLower)

/-- Bool test that `needle` occurs as a contiguous sublist. -/
def listContainsSub [BEq α] (needle : List α) : List α → Bool
  | [] => needle.isEmpty
  | a :: rest => needle.isPrefixOf (a :: rest) || listContainsSub needle rest

/-- Python `needle in hay` on strings: substring containment. -/
def containsSub (needle hay : String) : Bool :=
  listContainsSub needle.toList hay.toList

/-! ### Fixed-precision decimal formatting (`f"{float(v):.2f}"`) -/

/-- Floor of a rational as an integer (`Int.fdiv` floors because the
denominator is positive). -/
def ratFloor (q : ℚ) : Int :=
  Int.fdiv q.num (q.den : Int)

/-- Round a rational to the nearest integer, ties to even — the rounding
Python's fixed-point float formatting performs. -/
def roundHalfEven (q : ℚ) : Int :=
  let f := ratFloor q
  let r := q - (f : ℚ)
  if r < 1/2 then f
  else if 1/2 < r then f + 1
  else if f % 2 = 0 then f else f + 1

/-- Two-digit zero-padded rendering of a value below 100. -/
def pad2 (n : Nat) : String :=
  if n < 10 then "0" ++ toString n else toString n

/-- Python `f"{float(v):.2f}"`: fixed-precision decimal string with
exactly 2 fractional digits, round half to even, sign carried separately
so that small negative values keep their minus sign. -/
def formatFixed2 (q : ℚ) : String :=
  let m : Nat := (roundHalfEven ((if q < 0 then -q else q) * 100)).toNat
  let core := toString (m / 100) ++ "." ++ pad2 (m % 100)
  if q < 0 then "-" ++ core else core

/-- Python `str(v)` for the scalar kinds a cell can hold (only used on
the non-NA, non-numeric branch of `norm`). -/
def cellStr : Cell → String
  | Cell.na => ""
  | Cell.boolean b => if b then "True" else "False"
  | Cell.num _ => ""
  | Cell.str s => s

/-- The inner `norm` of `df_fingerprint`: NA to the token, numbers
(excluding booleans) to 2-digit fixed precision, everything else to its
string form with optional whitespace collapsing. -/
def normCell (normalizeWs : Bool) (naToken : String) (v : Cell) : String :=
  match v with
  | Cell.na => naToken
  | Cell.num q => formatFixed2 q
  | v =>
    let s := cellStr v
    if normalizeWs then wsNormalize s else s

/-! ### CSV serialization (`x.to_csv(index=False)`) -/

/-- Quote a CSV field exactly as the default (minimal) quoting does:
fields containing a comma, double quote, or newline are wrapped in double
quotes with inner quotes doubled. -/
def csvField (s : String) : String :=
  if s.toList.any (fun c => c = ',' || c = '"' || c = '\n' || c = '\r') then
    "\"" ++ String.join (s.toList.map (fun c => if c = '"' then "\"\"" else String.singleton c)) ++ "\""
  else s

/-- One CSV line (comma separated, newline terminated). -/
def csvLine (fields : List String) : String :=
  String.intercalate "," (fields.map csvField) ++ "\n"

/-- The payload `x.to_csv(index=False)`: header line of column names then
one line per row. -/
def toCsv (cols : List String) (rows : List (List String)) : String :=
  csvLine cols ++ String.join (rows.map csvLine)

/-! ### SHA-256 (`hashlib.sha256(payload.encode("utf-8")).hexdigest()`) -/

/-- UTF-8 encoding of one character as byte values. -/
def utf8Bytes (c : Char) : List Nat :=
  let n := c.toNat
  if n < 128 then [n]
  else if n < 2048 then [192 + n / 64, 128 + n % 64]
  else if n < 65536 then [224 + n / 4096, 128 + n / 64 % 64, 128 + n % 64]
  else [240 + n / 262144, 128 + n / 4096 % 64, 128 + n / 64 % 64, 128 + n % 64]

/-- UTF-8 encoding of a string as byte values (`payload.encode("utf-8")`). -/
def strBytes (s : String) : List Nat :=
  (s.toList.map utf8Bytes).flatten

/-- Truncate to a 32-bit word. -/
def w32 (n : Nat) : Nat := n % 4294967296

/-- Rotate a 32-bit word right by `n` bits. -/
def rotr (x n : Nat) : Nat := x / 2 ^ n + x % 2 ^ n * 2 ^ (32 - n)

/-- Bitwise complement of a 32-bit word. -/
def bnot32 (x : Nat) : Nat := 4294967295 - w32 x

/-- SHA-256 big-endian length suffix: `n` as 8 bytes. -/
def lenBytes (n : Nat) : List Nat :=
  (List.range 8).map (fun i => n / 256 ^ (7 - i) % 256)

/-- SHA-256 message padding: `0x80`, zeros to 56 mod 64, then the bit
length as 8 big-endian bytes. -/
def padMsg (bs : List Nat) : List Nat :=
  bs ++ 128 :: List.replicate ((119 - bs.length % 64) % 64) 0 ++ lenBytes (8 * bs.length)

/-- Split a byte list into 64-byte blocks. -/
def chunks64 (bs : List Nat) : List (List Nat) :=
  match bs with
  | [] => []
  | a :: rest => (a :: rest).take 64 :: chunks64 ((a :: rest).drop 64)
termination_by bs.length
decreasing_by simp; omega

/-- Pack bytes into big-endian 32-bit words. -/
def toWords : List Nat → List Nat
  | b0 :: b1 :: b2 :: b3 :: rest => (((b0 * 256 + b1) * 256 + b2) * 256 + b3) :: toWords rest
  | _ => []

/-- SHA-256 round constants. -/
def shaK : List Nat :=
  [1116352408, 1899447441, 3049323471, 3921009573,
   961987163, 1508970993, 2453635748, 2870763221,
   3624381080, 310598401, 607225278, 1426881987,
   1925078388, 2162078206, 2614888103, 3248222580,
   3835390401, 4022224774, 264347078, 604807628,
   770255983, 1249150122, 1555081692, 1996064986,
   2554220882, 2821834349, 2952996808, 3210313671,
   3336571891, 3584528711, 113926993, 338241895,
   666307205, 773529912, 1294757372, 1396182291,
   1695183700, 1986661051, 2177026350, 2456956037,
   2730485921, 2820302411, 3259730800, 3345764771,
   3516065817, 3600352804, 4094571909, 275423344,
   430227734, 506948616, 659060556, 883997877,
   958139571, 1322822218, 1537002063, 1747873779,
   1955562222, 2024104815, 2227730452, 2361852424,
   2428436474, 2756734187, 3204031479, 3329325298]

/-- SHA-256 initial hash state. -/
def shaH0 : List Nat :=
  [1779033703, 3144134277, 1013904242, 2773480762,
   1359893119, 2600822924, 528734635, 1541459225]

/-- SHA-256 small sigma 0. -/
def ssig0 (x : Nat) : Nat := rotr x 7 ^^^ rotr x 18 ^^^ x / 2 ^ 3

/-- SHA-256 small sigma 1. -/
def ssig1 (x : Nat) : Nat := rotr x 17 ^^^ rotr x 19 ^^^ x / 2 ^ 10

/-- SHA-256 big sigma 0. -/
def bsig0 (x : Nat) : Nat := rotr x 2 ^^^ rotr x 13 ^^^ rotr x 22

/-- SHA-256 big sigma 1. -/
def bsig1 (x : Nat) : Nat := rotr x 6 ^^^ rotr x 11 ^^^ rotr x 25

/-- Extend the 16 schedule words by `k` more rounds. -/
def sched (ws : List Nat) : Nat → List Nat
  | 0 => ws
  | k + 1 =>
    let n := ws.length
    let next := w32 (ssig1 (ws.getD (n - 2) 0) + ws.getD (n - 7) 0 +
      ssig0 (ws.getD (n - 15) 0) + ws.getD (n - 16) 0)
    sched (ws ++ [next]) k

/-- One SHA-256 compression pass over the paired schedule words and round
constants, acting on the 8-word working state. -/
def compress (st : List Nat) (wk : List (Nat × Nat)) : List Nat :=
  wk.foldl (fun s p =>
    match s with
    | [a, b, c, d, e, f, g, h] =>
      let t1 := w32 (h + bsig1 e + ((e &&& f) ^^^ (bnot32 e &&& g)) + p.2 + p.1)
      let t2 := w32 (bsig0 a + ((a &&& b) ^^^ (a &&& c) ^^^ (b &&& c)))
      [w32 (t1 + t2), a, b, c, w32 (d + t1), e, f, g]
    | s => s) st

/-- Hex digit for a value below 16 (lowercase). -/
def hexDigit (n : Nat) : Char :=
  if n < 10 then Char.ofNat (48 + n) else Char.ofNat (87 + n)

/-- A 32-bit word as 8 lowercase hex digits. -/
def hex8 (n : Nat) : String :=
  String.mk ((List.range 8).map (fun i => hexDigit (n / 16 ^ (7 - i) % 16)))

/-- SHA-256 hex digest of the UTF-8 bytes of a string:
`hashlib.sha256(s.encode("utf-8")).hexdigest()`. -/
def sha256hex (s : String) : String :=
  let final := (chunks64 (padMsg (strBytes s))).foldl (fun H block =>
    let ws := sched (toWords block) 48
    let st := compress H (ws.zip shaK)
    (H.zip st).map (fun p => w32 (p.1 + p.2))) shaH0
  String.join (final.map hex8)

/-! ### Row and column ordering -/

/-- Strict lexicographic comparison of character lists by code point,
the order Python uses on strings. -/
def charListLt : List Char → List Char → Bool
  | [], [] => false
  | [], _ :: _ => true
  | _ :: _, [] => false
  | a :: as, b :: bs => if a < b then true else if b < a then false else charListLt as bs

/-- Python `a < b` on strings. -/
def strLtB (a b : String) : Bool := charListLt a.toList b.toList

/-- Python `a <= b` on strings (used by `sorted(x.columns)`). -/
def strLeB (a b : String) : Bool := !strLtB b a

/-- Lexicographic over the full ordered tuple of cells: the key
`sort_values(by=list(x.columns))` sorts rows by. -/
def rowLe : List String → List String → Bool
  | [], _ => true
  | _ :: _, [] => false
  | a :: as, b :: bs => if strLtB a b then true else if strLtB b a then false else rowLe as bs

/-- The row order as a relation, for the sortedness machinery. -/
def RowLeP (a b : List String) : Prop := rowLe a b = true

/-- Metadata record `{"rows": int(len(df)), "cols": list(df.columns)}`. -/
structure MetaInfo where
  rows : Nat
  cols : List String
deriving DecidableEq, Repr

/-- Pick the cells of a row in the order of `newCols`, looking each
column name up in the original column list (pandas `reindex` on the
column axis; absent labels would be filled with NA). -/
def reindexRow (cols newCols : List String) (r : List Cell) : List Cell :=
  newCols.map (fun c => r.getD (cols.indexOf c) Cell.na)

/-- The `sort_cols` step `x.reindex(sorted(x.columns), axis=1)`. -/
def reindexDf (df : DataFrame) : DataFrame :=
  let newCols := df.cols.mergeSort strLeB
  ⟨newCols, df.rows.map (fun r => reindexRow df.cols newCols r)⟩

/-- The elementwise `x.map(norm)` step. -/
def mapNormDf (normalizeWs : Bool) (naToken : String) (df : DataFrame) : Table String :=
  ⟨df.cols, df.rows.map (fun r => r.map (normCell normalizeWs naToken))⟩

/-- The row-sorting step
`x.sort_values(by=list(x.columns), kind="mergesort").reset_index(drop=True)`:
a stable sort keyed on the full ordered tuple of (already normalized)
cell values. -/
def sortRowsDf (t : Table String) : Table String :=
  ⟨t.cols, t.rows.mergeSort rowLe⟩

/-- The function `df_fingerprint(df, sort_rows, sort_cols,
normalize_whitespace, na_token)`: canonicalize a copy of the frame (optional alphabetical
column reindex, elementwise `norm`, optional stable row sort), serialize
it with `to_csv(index=False)`, hash with SHA-256, and pair the digest
with metadata taken from the original, uncanonicalized frame. -/
def df_fingerprint (df : DataFrame) (sortRows sortCols normalizeWs : Bool)
    (naToken : String) : String × MetaInfo :=
  let x1 := if sortCols then reindexDf df else df
  let x2 := mapNormDf normalizeWs naToken x1
  let x3 := if sortRows ∧ 0 < x2.cols.length ∧ 0 < x2.rows.length then sortRowsDf x2 else x2
  (sha256hex (toCsv x3.cols x3.rows), ⟨df.rows.length, df.cols⟩)

/-! ### The structural and content validator
(`make_df_validator_nospoilers`) -/

/-- The configuration captured by the closure `make_df_validator_nospoilers`
returns (its keyword arguments, with `required_cols = required_cols or []`
already applied). -/
structure ValidatorCfg where
  expected_hash : String
  required_cols : List String
  exact_cols : Bool
  expected_rows : Option Nat
  sort_rows : Bool
  sort_cols : Bool
  hide_missing_cols : Bool
  hide_row_count : Bool
deriving DecidableEq, Repr

/-- Generic column-failure message. -/
def wrongColsMsg : String := "Wrong number of columns! Make corrections and try again."

/-- Generic row-count failure message (emitted by both `hide_row_count`
branches). -/
def wrongRowsMsg : String := "Wrong number of rows! Make corrections and try again."

/-- Generic digest-mismatch message. -/
def notCorrectMsg : String := "The result is not correct yet. Make corrections and try again."

/-- The fixed success message the validator itself returns. -/
def successMsg : String := "Nice — your output matches the expected result ✅"

/-- Explicit missing-column message: the fixed prefix followed by the
comma-joined missing column names. -/
def missingColsMsg (missing : List String) : String :=
  "Missing column(s): " ++ String.intercalate ", " missing

/-- Python `set(a) == set(b)` on string lists. -/
def colSetEq (a b : List String) : Bool :=
  a.all (fun c => b.contains c) && b.all (fun c => a.contains c)

/-- Python `expected_rows is not None and len(df) != expected_rows`. -/
def rowCountBad (expectedRows : Option Nat) (len : Nat) : Bool :=
  match expectedRows with
  | none => false
  | some n => len != n

/-- The inner `validator(sql, df, conn)` closure: required-column gate,
exact-column gate, row-count gate, then fingerprint comparison.  (The
source's `structural_issue` flag is only ever read on a path where it is
still `False`, so it does not appear.) -/
def validator (cfg : ValidatorCfg) (sql : String) (df : DataFrame) (conn : Unit) :
    Bool × List String :=
  let missing := cfg.required_cols.filter (fun c => !(df.cols.contains c))
  if missing ≠ [] then
    (false, [if cfg.hide_missing_cols then wrongColsMsg else missingColsMsg missing])
  else if cfg.exact_cols = true ∧ cfg.required_cols ≠ [] ∧ colSetEq df.cols cfg.required_cols = false then
    (false, [wrongColsMsg])
  else if rowCountBad cfg.expected_rows df.rows.length = true then
    (if cfg.hide_row_count then (false, [wrongRowsMsg]) else (false, [wrongRowsMsg]))
  else if (df_fingerprint df cfg.sort_rows cfg.sort_cols true "<NA>").1 ≠ cfg.expected_hash then
    (false, [notCorrectMsg])
  else
    (true, [successMsg])

/-- The builder `make_df_validator_nospoilers`: builds the closure carrying the
configuration. -/
def make_df_validator_nospoilers (cfg : ValidatorCfg) :
    String → DataFrame → Unit → Bool × List String :=
  validator cfg

/-! ### The rendering layer (`sql_runner.py`) -/

/-- The fixed pool of encouragement strings. -/
def SUCCESS_MESSAGES : List String :=
  ["👏 Nice!",
   "💪 Great job",
   "👏 Good job",
   "👏 Keep up the good work!",
   "👏 I think you’re getting the hang of this!",
   "👏 Well played",
   "🌟 Fantastic! Let’s keep it going",
   "👏 Nicely done"]

/-- The renderer `show_validation(ok, problems_or_msg)` reduced to the banner content it
renders: `(title, message, css class)`.  Randomness (`random.choice`) is
modelled by the index `pick` supplied by the environment's randomness
source; on success the title is drawn from the pool and the validator's
messages are discarded, on failure the fixed sad title is shown with the
problems joined by spaces. -/
def show_validation (ok : Bool) (problems : List String) (pick : Nat) :
    String × String × String :=
  let cls := if ok then "ok" else "err"
  if ok then
    (SUCCESS_MESSAGES.getD (pick % SUCCESS_MESSAGES.length) "", "", cls)
  else
    ("🙁 Not correct yet", String.intercalate " " problems, cls)

/-! ### The process rule checker (`check_process_rules`) -/

/-- Lookup in the `messages` dict of fixed human-readable rule messages:
`some` exactly on the dict's eight keys (`t in messages` /
`messages.get(t)`). -/
def ruleMessage (t : String) : Option String :=
  if t = "where" then some "Use a WHERE clause."
  else if t = "join" then some "Use a JOIN in this exercise."
  else if t = "group_by" then some "Use GROUP BY in this exercise."
  else if t = "having" then some "Use HAVING in this exercise."
  else if t = "distinct" then some "Use DISTINCT in this exercise."
  else if t = "order_by" then some "Don’t use ORDER BY for this exercise."
  else if t = "limit" then some "Don’t use LIMIT for this exercise."
  else if t = "subquery" then some "Don’t use subqueries for this exercise."
  else none

/-- Dict indexing `messages[t]` on a key known to be present. -/
def getMsg (t : String) : String := (ruleMessage t).getD ""

/-- The construct detector `has(token)` over the normalized query text
`s`; the final `raise KeyError(token)` is the explicit error value. -/
def hasE (s : String) (token : String) : Except String Bool :=
  if token = "where" then Except.ok (containsSub "where" s)
  else if token = "join" then Except.ok (containsSub " join " s)
  else if token = "group_by" then Except.ok (containsSub "group by" s)
  else if token = "having" then Except.ok (containsSub "having" s)
  else if token = "distinct" then Except.ok (containsSub "distinct" s)
  else if token = "order_by" then Except.ok (containsSub "order by" s)
  else if token = "limit" then Except.ok (containsSub "limit" s)
  else if token = "subquery" then Except.ok (containsSub "(select" s)
  else Except.error token

/-- Total version of the detector for tokens of the closed vocabulary
(used to state which constructs are present). -/
def hasB (s : String) (token : String) : Bool :=
  ((hasE s token).toOption).getD false

/-- Python `set(xs)` keeping first-occurrence order (CPython set
iteration order is unspecified; only membership matters to the checker's
control flow). -/
def setUnion (xs : List String) : List String :=
  xs.foldl (fun acc t => if t ∈ acc then acc else acc ++ [t]) []

/-- Python `f"{unknown}"`: repr of a list of plain strings. -/
def pyStrListRepr (l : List String) : String :=
  "[" ++ String.intercalate ", " (l.map (fun t => "\x27" ++ t ++ "\x27")) ++ "]"

/-- The internal configuration-error message. -/
def internalErrMsg (unknown : List String) : String :=
  "Internal error: unknown process rule(s): " ++ pyStrListRepr unknown

/-- The `for t in require` loop: `some` result means an early `return`,
`none` means the loop fell through; a `KeyError` from `has` propagates. -/
def requireLoop (s : String) : List String → Except String (Option (Bool × List String))
  | [] => Except.ok none
  | t :: ts =>
    match hasE s t with
    | Except.error e => Except.error e
    | Except.ok b => if !b then Except.ok (some (false, [getMsg t])) else requireLoop s ts

/-- The `for t in forbid` loop. -/
def forbidLoop (s : String) : List String → Except String (Option (Bool × List String))
  | [] => Except.ok none
  | t :: ts =>
    match hasE s t with
    | Except.error e => Except.error e
    | Except.ok b => if b then Except.ok (some (false, [getMsg t])) else forbidLoop s ts

/-- The checker `check_process_rules(sql, require=..., forbid=...)`: normalize the
query text, fail on unknown rule names, then run the require loop before
the forbid loop; an uncaught `KeyError` would surface as `Except.error`. -/
def check_process_rules (sql : String) (require forbid : List String) :
    Except String (Bool × List String) :=
  let s := wsNormalize (pyLower sql)
  let unknown := (setUnion (require ++ forbid)).filter (fun t => (ruleMessage t).isNone)
  if unknown ≠ [] then
    Except.ok (false, [internalErrMsg unknown])
  else
    match requireLoop s require with
    | Except.error e => Except.error e
    | Except.ok (some r) => Except.ok r
    | Except.ok none =>
      match forbidLoop s forbid with
      | Except.error e => Except.error e
      | Except.ok (some r) => Except.ok r
      | Except.ok none => Except.ok (true, [])

/-- The first violation in the spec's sense: the required constructs in
caller-given order first, then the forbidden ones.  This definition
follows the spec's wording and is compared against `check_process_rules`
in the claim about short-circuiting. -/
def firstViolation (s : String) (require forbid : List String) : Option String :=
  match require.find? (fun t => !(hasB s t)) with
  | some t => some t
  | none => forbid.find? (fun t => hasB s t)

/-! ### Heap-level view of `df_fingerprint` for the read-only claim -/

/-- A pandas frame object on the heap: either a caller-facing frame of
cells or a frame of normalized strings (the result of `x.map(norm)`). -/
inductive Obj where
  | cframe : DataFrame → Obj
  | sframe : Table String → Obj
deriving DecidableEq, Repr

/-- Read a heap slot as a cell frame. -/
def asCells : Obj → DataFrame
  | Obj.cframe d => d
  | Obj.sframe _ => ⟨[], []⟩

/-- Read a heap slot as a string frame. -/
def asStrs : Obj → Table String
  | Obj.sframe t => t
  | Obj.cframe _ => ⟨[], []⟩

/-- The function `df_fingerprint` with the pandas objects made explicit: the caller's
frame lives in a heap slot `r`; `df.copy()` and every non-inplace pandas
call (`reindex`, `map`, `sort_values(...).reset_index(...)`) allocates a
fresh slot.  Returns the final heap together with the function's value. -/
def df_fingerprint_prog (h0 : List Obj) (r : Nat) (sortRows sortCols normalizeWs : Bool)
    (naToken : String) : List Obj × (String × MetaInfo) :=
  let df := asCells (h0.getD r (Obj.cframe ⟨[], []⟩))
  let h1 := h0 ++ [Obj.cframe df]
  let x1 := h0.length
  let h2 := if sortCols then h1 ++ [Obj.cframe (reindexDf (asCells (h1.getD x1 (Obj.cframe ⟨[], []⟩))))] else h1
  let x2 := if sortCols then h1.length else x1
  let h3 := h2 ++ [Obj.sframe (mapNormDf normalizeWs naToken (asCells (h2.getD x2 (Obj.cframe ⟨[], []⟩))))]
  let x3 := h2.length
  let t3 := asStrs (h3.getD x3 (Obj.cframe ⟨[], []⟩))
  let t4 := if sortRows ∧ 0 < t3.cols.length ∧ 0 < t3.rows.length then sortRowsDf t3 else t3
  let h4 := h3 ++ [Obj.sframe t4]
  let x4 := h3.length
  let t5 := asStrs (h4.getD x4 (Obj.cframe ⟨[], []⟩))
  let dOrig := asCells (h4.getD r (Obj.cframe ⟨[], []⟩))
  (h4, (sha256hex (toCsv t5.cols t5.rows), ⟨dOrig.rows.length, dOrig.cols⟩))

/-- Replace one cell of a frame (used to state the numeric-tolerance
claim about two frames identical except in a single cell). -/
def setRows : List (List Cell) → Nat → Nat → Cell → List (List Cell)
  | [], _, _, _ => []
  | r :: rs, 0, j, c => r.set j c :: rs
  | r :: rs, i + 1, j, c => r :: setRows rs i j c

/-- The frame `df` with the cell at row `i`, column position `j`
replaced by `c` (unchanged when the position is out of range). -/
def setCell (df : DataFrame) (i j : Nat) (c : Cell) : DataFrame :=
  ⟨df.cols, setRows df.rows i j c⟩


/-! ### Facts about the process rule checker -/

theorem mem_setUnion_foldl (xs : List String) :
    ∀ (acc : List String) (t : String),
      (t ∈ xs.foldl (fun acc u => if u ∈ acc then acc else acc ++ [u]) acc) ↔ t ∈ acc ∨ t ∈ xs := by
  induction xs with
  | nil => intro acc t; simp
  | cons x xs ih =>
    intro acc t
    rw [List.foldl_cons]
    by_cases hx : x ∈ acc
    · rw [if_pos hx, ih]
      simp only [List.mem_cons]
      constructor
      · intro h
        rcases h with h | h
        · exact Or.inl h
        · exact Or.inr (Or.inr h)
      · intro h
        rcases h with h | h | h
        · exact Or.inl h
        · exact Or.inl (h ▸ hx)
        · exact Or.inr h
    · rw [if_neg hx, ih]
      simp only [List.mem_append, List.mem_singleton, List.mem_cons]
      tauto

theorem mem_setUnion {t : String} {xs : List String} : t ∈ setUnion xs ↔ t ∈ xs := by
  rw [setUnion, mem_setUnion_foldl]
  simp

theorem hasE_ok_of_known (s t : String) (h : (ruleMessage t).isSome = true) :
    hasE s t = Except.ok (hasB s t) := by
  by_cases h1 : t = "where"
  · subst h1; rfl
  by_cases h2 : t = "join"
  · subst h2; rfl
  by_cases h3 : t = "group_by"
  · subst h3; rfl
  by_cases h4 : t = "having"
  · subst h4; rfl
  by_cases h5 : t = "distinct"
  · subst h5; rfl
  by_cases h6 : t = "order_by"
  · subst h6; rfl
  by_cases h7 : t = "limit"
  · subst h7; rfl
  by_cases h8 : t = "subquery"
  · subst h8; rfl
  rw [ruleMessage, if_neg h1, if_neg h2, if_neg h3, if_neg h4, if_neg h5, if_neg h6,
    if_neg h7, if_neg h8] at h
  simp at h

theorem requireLoop_eq (s : String) (ts : List String)
    (h : ∀ t ∈ ts, (ruleMessage t).isSome = true) :
    requireLoop s ts =
      Except.ok ((ts.find? (fun t => !(hasB s t))).map (fun t => (false, [getMsg t]))) := by
  induction ts with
  | nil => rfl
  | cons t ts ih =>
    have ht : (ruleMessage t).isSome = true := h t (List.mem_cons_self t ts)
    simp only [requireLoop, hasE_ok_of_known s t ht]
    by_cases hb : hasB s t = true
    · rw [List.find?_cons_of_neg _ (by simp [hb])]
      simp only [hb, Bool.not_true, Bool.false_eq_true, if_false]
      exact ih (fun u hu => h u (List.mem_cons_of_mem _ hu))
    · have hb0 : hasB s t = false := by simpa using hb
      rw [List.find?_cons_of_pos _ (by simp [hb0])]
      simp [hb0]

theorem forbidLoop_eq (s : String) (ts : List String)
    (h : ∀ t ∈ ts, (ruleMessage t).isSome = true) :
    forbidLoop s ts =
      Except.ok ((ts.find? (fun t => hasB s t)).map (fun t => (false, [getMsg t]))) := by
  induction ts with
  | nil => rfl
  | cons t ts ih =>
    have ht : (ruleMessage t).isSome = true := h t (List.mem_cons_self t ts)
    simp only [forbidLoop, hasE_ok_of_known s t ht]
    by_cases hb : hasB s t = true
    · rw [List.find?_cons_of_pos _ (by simp [hb])]
      simp [hb]
    · have hb0 : hasB s t = false := by simpa using hb
      rw [List.find?_cons_of_neg _ (by simp [hb0])]
      simp only [hb0, Bool.false_eq_true, if_false]
      exact ih (fun u hu => h u (List.mem_cons_of_mem _ hu))

theorem check_process_rules_known_eq (sql : String) (require forbid : List String)
    (hk : ∀ t ∈ require ++ forbid, (ruleMessage t).isSome = true) :
    check_process_rules sql require forbid =
      Except.ok (match firstViolation (wsNormalize (pyLower sql)) require forbid with
        | some t => (false, [getMsg t])
        | none => (true, [])) := by
  have hu : (setUnion (require ++ forbid)).filter (fun t => (ruleMessage t).isNone) = [] := by
    rw [List.filter_eq_nil_iff]
    intro t htu
    have hs := hk t (mem_setUnion.mp htu)
    cases hr : ruleMessage t
    · rw [hr] at hs; simp at hs
    · simp [hr]
  simp only [check_process_rules]
  rw [if_neg (by simp [hu])]
  rw [requireLoop_eq _ _ (fun t ht => hk t (List.mem_append_left _ ht)),
    forbidLoop_eq _ _ (fun t ht => hk t (List.mem_append_right _ ht))]
  rw [firstViolation]
  cases hfr : (require.find? (fun t => !(hasB (wsNormalize (pyLower sql)) t))) with
  | some t => simp
  | none =>
    cases hff : (forbid.find? (fun t => hasB (wsNormalize (pyLower sql)) t)) with
    | some t => simp
    | none => simp

/-- C7: for every query text string and require/forbid lists of strings,
`check_process_rules` returns a verdict (a bool plus a list of messages)
and never raises: the `raise KeyError` branch inside the construct
detector `has` — the `Except.error` outcome of the embedding — is
unreachable, because unrecognized construct names cause a failing verdict
to be returned before `has` is ever called. -/
theorem C7_check_process_rules_never_raises (sql : String) (require forbid : List String) :
    ∃ v, check_process_rules sql require forbid = Except.ok v := by
  by_cases hu : (setUnion (require ++ forbid)).filter (fun t => (ruleMessage t).isNone) = []
  · have hk : ∀ t ∈ require ++ forbid, (ruleMessage t).isSome = true := by
      intro t ht
      have hf := List.filter_eq_nil_iff.mp hu t (mem_setUnion.mpr ht)
      cases hr : ruleMessage t
      · rw [hr] at hf; simp at hf
      · simp
    exact ⟨_, check_process_rules_known_eq sql require forbid hk⟩
  · exact ⟨(false, [internalErrMsg
      ((setUnion (require ++ forbid)).filter (fun t => (ruleMessage t).isNone))]),
      by simp only [check_process_rules]; rw [if_pos hu]⟩

/-- C4: for every query text and every require/forbid configuration
containing at least one construct name outside the closed vocabulary,
`check_process_rules` fails fast on unrecognized construct names: it
returns `passed = false` with the internal-error message and performs no
learner-facing require/forbid checks (the result does not depend on the
query text). -/
theorem C4_unknown_rule_fails_fast (sql : String) (require forbid : List String)
    (h : ∃ t, t ∈ require ++ forbid ∧ (ruleMessage t).isNone = true) :
    check_process_rules sql require forbid =
      Except.ok (false, [internalErrMsg
        ((setUnion (require ++ forbid)).filter (fun t => (ruleMessage t).isNone))]) := by
  obtain ⟨t, ht, hn⟩ := h
  have hne : (setUnion (require ++ forbid)).filter (fun t => (ruleMessage t).isNone) ≠ [] :=
    List.ne_nil_of_mem (List.mem_filter.mpr ⟨mem_setUnion.mpr ht, hn⟩)
  simp only [check_process_rules]
  rw [if_pos hne]

/-- Witness for C4: a configuration with the unrecognized rule name
`"frobnicate"` fails with the internal-error message. -/
theorem C4_unknown_rule_fails_fast_witness :
    (∃ t, t ∈ ["frobnicate"] ++ ["where"] ∧ (ruleMessage t).isNone = true) ∧
    check_process_rules "select 1" ["frobnicate"] ["where"] =
      Except.ok (false, [internalErrMsg
        ((setUnion (["frobnicate"] ++ ["where"])).filter (fun t => (ruleMessage t).isNone))]) :=
  ⟨⟨"frobnicate", by decide, by decide⟩,
    C4_unknown_rule_fails_fast "select 1" ["frobnicate"] ["where"]
      ⟨"frobnicate", by decide, by decide⟩⟩

/-- C5: for every query text and recognized rule configuration with at
least one violation, `check_process_rules` checks required constructs in
the caller-given order before forbidden constructs, short-circuits on the
first violation (`firstViolation` finds in `require` before `forbid`),
and returns `passed = false` with exactly the single-element message list
holding that violation's fixed message. -/
theorem C5_first_violation_short_circuits (sql : String) (require forbid : List String)
    (hk : ∀ t ∈ require ++ forbid, (ruleMessage t).isSome = true)
    (hv : firstViolation (wsNormalize (pyLower sql)) require forbid ≠ none) :
    ∃ t, firstViolation (wsNormalize (pyLower sql)) require forbid = some t ∧
      check_process_rules sql require forbid = Except.ok (false, [getMsg t]) := by
  rcases Option.eq_none_or_eq_some (firstViolation (wsNormalize (pyLower sql)) require forbid)
    with hn | ⟨t, ht⟩
  · exact absurd hn hv
  · refine ⟨t, ht, ?_⟩
    rw [check_process_rules_known_eq sql require forbid hk, ht]

/-- Witness for C5: `check_process_rules("SELECT * FROM t", require=["where"])`
fails with exactly the WHERE message. -/
theorem C5_first_violation_short_circuits_witness :
    (∀ t ∈ ["where"] ++ ([] : List String), (ruleMessage t).isSome = true) ∧
    firstViolation (wsNormalize (pyLower "SELECT * FROM t")) ["where"] [] ≠ none ∧
    ∃ t, firstViolation (wsNormalize (pyLower "SELECT * FROM t")) ["where"] [] = some t ∧
      check_process_rules "SELECT * FROM t" ["where"] [] = Except.ok (false, [getMsg t]) :=
  ⟨by decide, by decide,
    C5_first_violation_short_circuits "SELECT * FROM t" ["where"] [] (by decide) (by decide)⟩

/-! ### The row order is a linear order: sorting permuted rows agrees -/

theorem clt_asymm : ∀ as bs : List Char, charListLt as bs = true → charListLt bs as = false
  | [], [] => by simp [charListLt]
  | [], _ :: _ => by simp [charListLt]
  | _ :: _, [] => by simp [charListLt]
  | a :: as, b :: bs => by
    intro h
    by_cases hab : a < b
    · simp [charListLt, hab, lt_asymm hab]
    · by_cases hba : b < a
      · simp [charListLt, hab, hba] at h
      · simp only [charListLt, hab, hba, if_false] at h ⊢
        exact clt_asymm as bs h

theorem clt_conn : ∀ as bs : List Char, charListLt as bs = false → charListLt bs as = false → as = bs
  | [], [] => by intros; rfl
  | [], _ :: _ => by simp [charListLt]
  | _ :: _, [] => by simp [charListLt]
  | a :: as, b :: bs => by
    intro h1 h2
    by_cases hab : a < b
    · simp [charListLt, hab] at h1
    · by_cases hba : b < a
      · simp [charListLt, hba] at h2
      · have hab' : a = b := le_antisymm (not_lt.mp hba) (not_lt.mp hab)
        subst hab'
        simp only [charListLt, lt_irrefl, if_false] at h1 h2
        rw [clt_conn as bs h1 h2]

theorem clt_trans : ∀ as bs cs : List Char,
    charListLt as bs = true → charListLt bs cs = true → charListLt as cs = true
  | [], [], _ => by simp [charListLt]
  | [], _ :: _, [] => by simp [charListLt]
  | [], _ :: _, _ :: _ => by simp [charListLt]
  | _ :: _, [], _ => by simp [charListLt]
  | _ :: _, _ :: _, [] => by simp [charListLt]
  | a :: as, b :: bs, c :: cs => by
    intro h1 h2
    by_cases hab : a < b
    · by_cases hbc : b < c
      · simp [charListLt, lt_trans hab hbc]
      · by_cases hcb : c < b
        · simp [charListLt, hbc, hcb] at h2
        · have : b = c := le_antisymm (not_lt.mp hcb) (not_lt.mp hbc)
          subst this
          simp [charListLt, hab]
    · by_cases hba : b < a
      · simp [charListLt, hab, hba] at h1
      · have : a = b := le_antisymm (not_lt.mp hba) (not_lt.mp hab)
        subst this
        simp only [charListLt, lt_irrefl, if_false] at h1
        by_cases hac : a < c
        · simp [charListLt, hac]
        · by_cases hca : c < a
          · simp [charListLt, hac, hca] at h2
          · have : a = c := le_antisymm (not_lt.mp hca) (not_lt.mp hac)
            subst this
            simp only [charListLt, lt_irrefl, if_false] at h2 ⊢
            exact clt_trans as bs cs h1 h2

theorem toList_inj {a b : String} (h : a.toList = b.toList) : a = b := by
  cases a
  cases b
  simp only [String.toList] at h
  rw [h]

theorem slt_asymm {a b : String} (h : strLtB a b = true) : strLtB b a = false :=
  clt_asymm _ _ h

theorem slt_conn {a b : String} (h1 : strLtB a b = false) (h2 : strLtB b a = false) : a = b :=
  toList_inj (clt_conn _ _ h1 h2)

theorem slt_trans {a b c : String} (h1 : strLtB a b = true) (h2 : strLtB b c = true) :
    strLtB a c = true :=
  clt_trans _ _ _ h1 h2

theorem rowLe_total : ∀ a b : List String, (rowLe a b || rowLe b a) = true
  | [], _ => by simp [rowLe]
  | _ :: _, [] => by simp [rowLe]
  | a :: as, b :: bs => by
    by_cases hab : strLtB a b = true
    · simp [rowLe, hab]
    · by_cases hba : strLtB b a = true
      · simp [rowLe, hba]
      · simp only [rowLe, hab, hba, if_false, Bool.false_eq_true]
        exact rowLe_total as bs

theorem rowLe_trans : ∀ a b c : List String,
    rowLe a b = true → rowLe b c = true → rowLe a c = true
  | [], _, _ => by intros; simp [rowLe]
  | _ :: _, [], _ => by simp [rowLe]
  | _ :: _, _ :: _, [] => by intro h; simp [rowLe]
  | a :: as, b :: bs, c :: cs => by
    intro h1 h2
    by_cases hab : strLtB a b = true
    · by_cases hbc : strLtB b c = true
      · simp [rowLe, slt_trans hab hbc]
      · by_cases hcb : strLtB c b = true
        · simp [rowLe, hbc, hcb] at h2
        · have : b = c := slt_conn (by simpa using hbc) (by simpa using hcb)
          subst this
          simp [rowLe, hab]
    · by_cases hba : strLtB b a = true
      · simp [rowLe, hab, hba] at h1
      · have : a = b := slt_conn (by simpa using hab) (by simpa using hba)
        subst this
        by_cases hac : strLtB a c = true
        · simp [rowLe, hac]
        · by_cases hca : strLtB c a = true
          · simp [rowLe, hac, hca] at h2
          · simp only [rowLe, hac, hca, if_false] at h2 ⊢
            have h1' : rowLe as bs = true := by
              by_cases haa : strLtB a a = true
              · exact absurd (slt_asymm haa) (by simp [haa])
              · simpa [rowLe, haa] using h1
            exact rowLe_trans as bs cs h1' h2

theorem rowLe_antisymm : ∀ a b : List String,
    rowLe a b = true → rowLe b a = true → a = b
  | [], [] => by intros; rfl
  | [], _ :: _ => by intro _ h; simp [rowLe] at h
  | _ :: _, [] => by intro h; simp [rowLe] at h
  | a :: as, b :: bs => by
    intro h1 h2
    by_cases hab : strLtB a b = true
    · have := slt_asymm hab
      simp [rowLe, hab, this] at h2
    · by_cases hba : strLtB b a = true
      · simp [rowLe, hab, hba] at h1
      · have hab0 : strLtB a b = false := by simpa using hab
        have hba0 : strLtB b a = false := by simpa using hba
        simp only [rowLe, hab0, hba0, Bool.false_eq_true, if_false] at h1 h2
        have heq : a = b := slt_conn hab0 hba0
        subst heq
        rw [rowLe_antisymm as bs h1 h2]

theorem mergeSort_rowLe_eq_of_perm {l₁ l₂ : List (List String)} (hp : l₁.Perm l₂) :
    l₁.mergeSort rowLe = l₂.mergeSort rowLe := by
  haveI : IsAntisymm (List String) RowLeP := ⟨fun a b => rowLe_antisymm a b⟩
  have hs₁ : List.Sorted RowLeP (l₁.mergeSort rowLe) :=
    (List.sorted_mergeSort (fun a b c => rowLe_trans a b c)
      (fun a b => rowLe_total a b) l₁).imp (fun h => h)
  have hs₂ : List.Sorted RowLeP (l₂.mergeSort rowLe) :=
    (List.sorted_mergeSort (fun a b c => rowLe_trans a b c)
      (fun a b => rowLe_total a b) l₂).imp (fun h => h)
  exact List.eq_of_perm_of_sorted
    (((List.mergeSort_perm l₁ rowLe).trans hp).trans (List.mergeSort_perm l₂ rowLe).symm) hs₁ hs₂

theorem sortStep_cols (t : Table String) (c : Prop) [Decidable c] :
    (if c then sortRowsDf t else t).cols = t.cols := by
  split <;> rfl

theorem sortStep_rows (t : Table String) (c : Prop) [Decidable c] :
    (if c then sortRowsDf t else t).rows = if c then t.rows.mergeSort rowLe else t.rows := by
  split <;> rfl

theorem canonRows_eq (cols : List String) (rows rows' : List (List String))
    (hp : rows'.Perm rows) (hz : cols = [] → ∀ r ∈ rows, r = []) :
    (if 0 < cols.length ∧ 0 < rows'.length then rows'.mergeSort rowLe else rows') =
      (if 0 < cols.length ∧ 0 < rows.length then rows.mergeSort rowLe else rows) := by
  rcases Nat.eq_zero_or_pos cols.length with hc | hc
  · rw [if_neg (by omega), if_neg (by omega)]
    have hz' := hz (List.length_eq_zero.mp hc)
    have h1 : rows = List.replicate rows.length ([] : List String) :=
      List.eq_replicate_iff.mpr ⟨rfl, hz'⟩
    have h2 : rows' = List.replicate rows'.length ([] : List String) :=
      List.eq_replicate_iff.mpr ⟨rfl, fun r hr => hz' r (hp.mem_iff.mp hr)⟩
    rw [h1, h2, hp.length_eq]
  · rcases Nat.eq_zero_or_pos rows.length with h0 | h0
    · have he : rows = [] := List.length_eq_zero.mp h0
      subst he
      have he' : rows' = [] := List.length_eq_zero.mp (by rw [hp.length_eq]; rfl)
      subst he'
      rfl
    · rw [if_pos ⟨hc, by rw [hp.length_eq]; exact h0⟩, if_pos ⟨hc, h0⟩]
      exact mergeSort_rowLe_eq_of_perm hp

/-- C1: for every result table and every permutation of its rows,
`df_fingerprint` called with `sort_rows = true` returns the same digest
for the permuted table as for the original table, for any setting of the
remaining options. -/
theorem C1_fingerprint_row_permutation_invariant
    (df df' : DataFrame) (sortCols normalizeWs : Bool) (naToken : String)
    (hwf : df.WF) (hcols : df'.cols = df.cols) (hperm : df'.rows.Perm df.rows) :
    (df_fingerprint df' true sortCols normalizeWs naToken).1 =
      (df_fingerprint df true sortCols normalizeWs naToken).1 := by
  have hx2cols : (mapNormDf normalizeWs naToken (if sortCols then reindexDf df' else df')).cols =
      (mapNormDf normalizeWs naToken (if sortCols then reindexDf df else df)).cols := by
    cases sortCols <;> simp [mapNormDf, reindexDf, hcols]
  have hx2rows : (mapNormDf normalizeWs naToken (if sortCols then reindexDf df' else df')).rows.Perm
      (mapNormDf normalizeWs naToken (if sortCols then reindexDf df else df)).rows := by
    cases sortCols
    · simpa [mapNormDf] using hperm.map _
    · simp only [reindexDf, mapNormDf, hcols, List.map_map, if_true]
      exact hperm.map _
  have hz : (mapNormDf normalizeWs naToken (if sortCols then reindexDf df else df)).cols = [] →
      ∀ r ∈ (mapNormDf normalizeWs naToken (if sortCols then reindexDf df else df)).rows, r = [] := by
    intro hc0 r hr
    cases sortCols
    · simp only [if_false, Bool.false_eq_true, mapNormDf] at hc0 hr
      obtain ⟨rr, hrr, rfl⟩ := List.mem_map.mp hr
      have : rr.length = 0 := by rw [hwf rr hrr, hc0]; rfl
      rw [List.length_eq_zero.mp this]
      rfl
    · simp only [mapNormDf, reindexDf, List.map_map, if_true] at hc0 hr
      obtain ⟨rr, hrr, rfl⟩ := List.mem_map.mp hr
      simp [Function.comp, reindexRow, hc0]
  simp only [df_fingerprint, eq_self_iff_true, true_and]
  rw [sortStep_cols, sortStep_cols, sortStep_rows, sortStep_rows, hx2cols]
  exact congrArg (fun rs => sha256hex (toCsv _ rs)) (canonRows_eq _ _ _ hx2rows hz)

/-- Witness for C1: the spec's example pair — two tables with the same
rows in reversed order produce equal digests under default settings. -/
theorem C1_fingerprint_row_permutation_invariant_witness :
    (⟨["a", "b"], [[Cell.num 1, Cell.str "x"], [Cell.num 2, Cell.str "y"]]⟩ : DataFrame).WF ∧
    (⟨["a", "b"], [[Cell.num 2, Cell.str "y"], [Cell.num 1, Cell.str "x"]]⟩ : DataFrame).cols =
      (⟨["a", "b"], [[Cell.num 1, Cell.str "x"], [Cell.num 2, Cell.str "y"]]⟩ : DataFrame).cols ∧
    (⟨["a", "b"], [[Cell.num 2, Cell.str "y"], [Cell.num 1, Cell.str "x"]]⟩ : DataFrame).rows.Perm
      (⟨["a", "b"], [[Cell.num 1, Cell.str "x"], [Cell.num 2, Cell.str "y"]]⟩ : DataFrame).rows ∧
    (df_fingerprint ⟨["a", "b"], [[Cell.num 2, Cell.str "y"], [Cell.num 1, Cell.str "x"]]⟩
        true false true "<NA>").1 =
      (df_fingerprint ⟨["a", "b"], [[Cell.num 1, Cell.str "x"], [Cell.num 2, Cell.str "y"]]⟩
        true false true "<NA>").1 :=
  ⟨by decide, rfl, List.Perm.swap _ _ _,
    C1_fingerprint_row_permutation_invariant
      ⟨["a", "b"], [[Cell.num 1, Cell.str "x"], [Cell.num 2, Cell.str "y"]]⟩
      ⟨["a", "b"], [[Cell.num 2, Cell.str "y"], [Cell.num 1, Cell.str "x"]]⟩
      false true "<NA>" (by decide) rfl (List.Perm.swap _ _ _)⟩

/-! ### Numeric tolerance: replacing one numeric cell by an equivalent one -/

theorem setRows_length : ∀ (rows : List (List Cell)) (i j : Nat) (c : Cell),
    (setRows rows i j c).length = rows.length
  | [], _, _, _ => rfl
  | _ :: _, 0, _, _ => rfl
  | _ :: rs, i + 1, j, c => by
    simp only [setRows, List.length_cons, setRows_length rs i j c]

theorem norm_getD_set {g : Cell → String} {c1 c2 : Cell} (hg : g c1 = g c2)
    (r : List Cell) (j k : Nat) (d : Cell) :
    g ((r.set j c1).getD k d) = g ((r.set j c2).getD k d) := by
  simp only [List.getD_eq_getElem?_getD, List.getElem?_set]
  by_cases hjk : j = k
  · subst hjk
    by_cases hj : j < r.length
    · simp [hj, hg]
    · simp [hj]
  · simp [hjk]

theorem setRows_map_congr (F : List Cell → List String) (c1 c2 : Cell) (j : Nat)
    (hF : ∀ r : List Cell, F (r.set j c1) = F (r.set j c2)) :
    ∀ (rows : List (List Cell)) (i : Nat),
      (setRows rows i j c1).map F = (setRows rows i j c2).map F
  | [], _ => rfl
  | r :: rs, 0 => by simp only [setRows, List.map_cons, hF r]
  | r :: rs, i + 1 => by
    simp only [setRows, List.map_cons]
    rw [setRows_map_congr F c1 c2 j hF rs i]

/-- C6: for every table, `df_fingerprint` of the table with a numeric
cell holding `9.8999999999` equals `df_fingerprint` of the identical
table with that cell replaced by `9.90`: a numeric (non-boolean) cell is
normalized to a fixed-precision decimal string with exactly 2 fractional
digits before serialization, so both cells normalize to the token
`"9.90"`. -/
theorem C6_numeric_tolerance (df : DataFrame) (i j : Nat)
    (sortRows sortCols normalizeWs : Bool) (naToken : String) :
    normCell normalizeWs naToken (Cell.num ((98999999999 : ℚ) / 10000000000)) = "9.90" ∧
    normCell normalizeWs naToken (Cell.num ((99 : ℚ) / 10)) = "9.90" ∧
    df_fingerprint (setCell df i j (Cell.num ((98999999999 : ℚ) / 10000000000)))
        sortRows sortCols normalizeWs naToken =
      df_fingerprint (setCell df i j (Cell.num ((99 : ℚ) / 10)))
        sortRows sortCols normalizeWs naToken := by
  have e1 : normCell normalizeWs naToken (Cell.num ((98999999999 : ℚ) / 10000000000)) = "9.90" := by
    show formatFixed2 _ = _
    with_unfolding_all rfl
  have e2 : normCell normalizeWs naToken (Cell.num ((99 : ℚ) / 10)) = "9.90" := by
    show formatFixed2 _ = _
    with_unfolding_all rfl
  have hg : normCell normalizeWs naToken (Cell.num ((98999999999 : ℚ) / 10000000000)) =
      normCell normalizeWs naToken (Cell.num ((99 : ℚ) / 10)) := by rw [e1, e2]
  refine ⟨e1, e2, ?_⟩
  have hx2 : mapNormDf normalizeWs naToken
        (if sortCols then reindexDf (setCell df i j (Cell.num ((98999999999 : ℚ) / 10000000000)))
         else setCell df i j (Cell.num ((98999999999 : ℚ) / 10000000000))) =
      mapNormDf normalizeWs naToken
        (if sortCols then reindexDf (setCell df i j (Cell.num ((99 : ℚ) / 10)))
         else setCell df i j (Cell.num ((99 : ℚ) / 10))) := by
    cases sortCols
    · simp only [if_false, Bool.false_eq_true, mapNormDf, setCell]
      congr 1
      exact setRows_map_congr (fun r => r.map (normCell normalizeWs naToken)) _ _ j
        (fun r => by simp only [List.map_set, hg]) df.rows i
    · simp only [if_true, mapNormDf, reindexDf, setCell, List.map_map]
      congr 1
      refine setRows_map_congr _ _ _ j (fun r => ?_) df.rows i
      simp only [Function.comp, reindexRow, List.map_map]
      exact List.map_congr_left
        (fun col _ => norm_getD_set hg r j (df.cols.indexOf col) Cell.na)
  simp only [df_fingerprint, hx2]
  simp [setCell, setRows_length]

/-- C10: for every result table and every option combination, the
metadata record returned by `df_fingerprint` reports the row count and
the column names of the original input table in their original order: it
is computed from the uncanonicalized table, so the sorting options change
only the digest's input, never the metadata. -/
theorem C10_metadata_from_original_table (df : DataFrame)
    (sortRows sortCols normalizeWs : Bool) (naToken : String) :
    (df_fingerprint df sortRows sortCols normalizeWs naToken).2 =
      ⟨df.rows.length, df.cols⟩ := rfl

/-- C3: for every validator built with a non-empty `required_cols` and
every table missing at least one required column, the validator fails at
the structural stage with the column message; the expected digest is
universally quantified and absent from the result, so the outcome is the
same even when the table's content would hash-match. -/
theorem C3_missing_required_column_fails_structurally
    (expectedHash : String) (requiredCols : List String) (exactCols : Bool)
    (expectedRows : Option Nat) (sortRows sortCols hideMissing hideRowCount : Bool)
    (sql : String) (df : DataFrame)
    (hmiss : requiredCols.filter (fun c => !(df.cols.contains c)) ≠ []) :
    validator ⟨expectedHash, requiredCols, exactCols, expectedRows, sortRows, sortCols,
        hideMissing, hideRowCount⟩ sql df () =
      (false, [if hideMissing then wrongColsMsg
               else missingColsMsg (requiredCols.filter (fun c => !(df.cols.contains c)))]) := by
  simp only [validator]
  rw [if_pos hmiss]

/-- Witness for C3: a table lacking the required column fails
structurally even though its expected digest is exactly its own
fingerprint (it would hash-match). -/
theorem C3_missing_required_column_fails_structurally_witness :
    (["a"].filter (fun c => !((⟨["b"], [[Cell.num 1]]⟩ : DataFrame).cols.contains c)) ≠ []) ∧
    validator ⟨(df_fingerprint ⟨["b"], [[Cell.num 1]]⟩ true false true "<NA>").1, ["a"], false,
        none, true, false, true, false⟩ "select 1" ⟨["b"], [[Cell.num 1]]⟩ () =
      (false, [if true then wrongColsMsg
               else missingColsMsg
                 (["a"].filter (fun c => !((⟨["b"], [[Cell.num 1]]⟩ : DataFrame).cols.contains c)))]) :=
  ⟨by decide,
    C3_missing_required_column_fails_structurally
      (df_fingerprint ⟨["b"], [[Cell.num 1]]⟩ true false true "<NA>").1 ["a"] false none
      true false true false "select 1" ⟨["b"], [[Cell.num 1]]⟩ (by decide)⟩

/-- C8: for every validator built with `expected_rows` set and every
structurally valid table whose row count differs, the validator fails
with the generic wrong-number-of-rows message, and the verdict is the
same string whether `hide_row_count` is true or false. -/
theorem C8_row_count_mismatch_generic_message
    (expectedHash : String) (requiredCols : List String) (exactCols : Bool) (n : Nat)
    (sortRows sortCols hideMissing hideRowCount : Bool) (sql : String) (df : DataFrame)
    (hmiss : requiredCols.filter (fun c => !(df.cols.contains c)) = [])
    (hexact : ¬(exactCols = true ∧ requiredCols ≠ [] ∧ colSetEq df.cols requiredCols = false))
    (hrows : df.rows.length ≠ n) :
    validator ⟨expectedHash, requiredCols, exactCols, some n, sortRows, sortCols,
        hideMissing, hideRowCount⟩ sql df () = (false, [wrongRowsMsg]) ∧
    validator ⟨expectedHash, requiredCols, exactCols, some n, sortRows, sortCols,
        hideMissing, true⟩ sql df () =
      validator ⟨expectedHash, requiredCols, exactCols, some n, sortRows, sortCols,
        hideMissing, false⟩ sql df () := by
  have key : ∀ hr : Bool,
      validator ⟨expectedHash, requiredCols, exactCols, some n, sortRows, sortCols,
        hideMissing, hr⟩ sql df () = (false, [wrongRowsMsg]) := by
    intro hr
    simp only [validator]
    rw [if_neg (fun h => h hmiss), if_neg hexact,
      if_pos (by simp only [rowCountBad]; simpa using hrows)]
    cases hr <;> rfl
  exact ⟨key hideRowCount, by rw [key true, key false]⟩

/-- Witness for C8: one row against an expected count of two fails with
the generic message under both `hide_row_count` settings. -/
theorem C8_row_count_mismatch_generic_message_witness :
    ((([] : List String)).filter (fun c => !((⟨["a"], [[Cell.num 1]]⟩ : DataFrame).cols.contains c)) = []) ∧
    (¬(false = true ∧ ([] : List String) ≠ [] ∧
        colSetEq (⟨["a"], [[Cell.num 1]]⟩ : DataFrame).cols [] = false)) ∧
    ((⟨["a"], [[Cell.num 1]]⟩ : DataFrame).rows.length ≠ 2) ∧
    (validator ⟨"", [], false, some 2, true, false, true, false⟩ "select 1"
        ⟨["a"], [[Cell.num 1]]⟩ () = (false, [wrongRowsMsg]) ∧
      validator ⟨"", [], false, some 2, true, false, true, true⟩ "select 1"
          ⟨["a"], [[Cell.num 1]]⟩ () =
        validator ⟨"", [], false, some 2, true, false, true, false⟩ "select 1"
          ⟨["a"], [[Cell.num 1]]⟩ ()) :=
  ⟨by decide, by decide, by decide,
    C8_row_count_mismatch_generic_message "" [] false 2 true false true false "select 1"
      ⟨["a"], [[Cell.num 1]]⟩ (by decide) (by decide) (by decide)⟩

/-- C2 as stated is false at this concrete input: the digest matches, the
validator passes, but the affirmative message it returns is the fixed
`successMsg`, which is not an element of the `SUCCESS_MESSAGES` pool —
the validator's success message is not drawn (randomly or otherwise)
from the pool of encouragement strings. -/
theorem C2_counterexample_success_message_not_from_pool :
    validator ⟨(df_fingerprint ⟨["a"], [[Cell.num 1]]⟩ true false true "<NA>").1, [], false, none,
        true, false, true, false⟩ "select 1" ⟨["a"], [[Cell.num 1]]⟩ () = (true, [successMsg]) ∧
    successMsg ∉ SUCCESS_MESSAGES := by
  constructor
  · simp only [validator]
    rw [if_neg (fun h => h rfl), if_neg (by simp), if_neg (by simp [rowCountBad]),
      if_neg (by simp)]
  · decide

/-- C2 (amended): when the structural gates pass and the digest matches,
the validator returns `passed = true` with the fixed affirmative message
`successMsg`; the random choice from the fixed `SUCCESS_MESSAGES` pool is
applied by the rendering layer `show_validation`, whose success title is
always an element of the pool while the random pick never affects the
ok/err classification of the verdict. -/
theorem C2_success_fixed_message_random_title_cosmetic
    (expectedHash : String) (requiredCols : List String) (exactCols : Bool)
    (expectedRows : Option Nat) (sortRows sortCols hideMissing hideRowCount : Bool)
    (sql : String) (df : DataFrame)
    (hmiss : requiredCols.filter (fun c => !(df.cols.contains c)) = [])
    (hexact : ¬(exactCols = true ∧ requiredCols ≠ [] ∧ colSetEq df.cols requiredCols = false))
    (hrows : rowCountBad expectedRows df.rows.length = false)
    (hhash : (df_fingerprint df sortRows sortCols true "<NA>").1 = expectedHash) :
    validator ⟨expectedHash, requiredCols, exactCols, expectedRows, sortRows, sortCols,
        hideMissing, hideRowCount⟩ sql df () = (true, [successMsg]) ∧
    (∀ problems pick, (show_validation true problems pick).1 ∈ SUCCESS_MESSAGES) ∧
    (∀ ok problems pick, (show_validation ok problems pick).2.2 =
      if ok = true then "ok" else "err") := by
  refine ⟨?_, ?_, ?_⟩
  · simp only [validator]
    rw [if_neg (fun h => h hmiss), if_neg hexact, if_neg (by simp [hrows]),
      if_neg (by simp [hhash])]
  · intro problems pick
    have hlt : pick % SUCCESS_MESSAGES.length < SUCCESS_MESSAGES.length :=
      Nat.mod_lt _ (by simp [SUCCESS_MESSAGES])
    simp only [show_validation, if_true, List.getD_eq_getElem?_getD,
      List.getElem?_eq_getElem hlt, Option.getD_some]
    exact List.getElem_mem hlt
  · intro ok problems pick
    cases ok <;> rfl

/-- Witness for C2 (amended) at a concrete matching table: all structural
gates pass, the digest matches, and the validator returns the fixed
success message. -/
theorem C2_success_fixed_message_random_title_cosmetic_witness :
    (([] : List String).filter
        (fun c => !((⟨["a"], [[Cell.num 1]]⟩ : DataFrame).cols.contains c)) = []) ∧
    (¬(false = true ∧ ([] : List String) ≠ [] ∧
        colSetEq (⟨["a"], [[Cell.num 1]]⟩ : DataFrame).cols [] = false)) ∧
    (rowCountBad none (⟨["a"], [[Cell.num 1]]⟩ : DataFrame).rows.length = false) ∧
    validator ⟨(df_fingerprint ⟨["a"], [[Cell.num 1]]⟩ true false true "<NA>").1, [], false, none,
        true, false, true, false⟩ "select 1" ⟨["a"], [[Cell.num 1]]⟩ () = (true, [successMsg]) :=
  ⟨by decide, by decide, by decide,
    (C2_success_fixed_message_random_title_cosmetic
      (df_fingerprint ⟨["a"], [[Cell.num 1]]⟩ true false true "<NA>").1 [] false none
      true false true false "select 1" ⟨["a"], [[Cell.num 1]]⟩
      (by decide) (by decide) (by decide) rfl).1⟩

theorem getD_append_lt (l tail : List Obj) (r : Nat) (d : Obj) (h : r < l.length) :
    (l ++ tail).getD r d = l.getD r d := by
  simp [List.getD_eq_getElem?_getD, List.getElem?_append_left h]

theorem getD_concat_length (l : List Obj) (a d : Obj) :
    (l ++ [a]).getD l.length d = a := by
  simp [List.getD_eq_getElem?_getD, List.getElem?_concat_length]

/-- C9: for every heap slot holding the caller's result table and every
option combination, `df_fingerprint` leaves the input table unchanged:
every pandas step operates on freshly allocated copies, so after the call
the caller's slot holds the same columns, rows and cell values as before,
and the returned value is the pure fingerprint of that unchanged table. -/
theorem C9_fingerprint_leaves_input_unchanged (h0 : List Obj) (r : Nat)
    (sortRows sortCols normalizeWs : Bool) (naToken : String)
    (hr : r < h0.length) :
    (df_fingerprint_prog h0 r sortRows sortCols normalizeWs naToken).1.getD r
        (Obj.cframe ⟨[], []⟩) = h0.getD r (Obj.cframe ⟨[], []⟩) ∧
    (df_fingerprint_prog h0 r sortRows sortCols normalizeWs naToken).2 =
      df_fingerprint (asCells (h0.getD r (Obj.cframe ⟨[], []⟩)))
        sortRows sortCols normalizeWs naToken := by
  cases sortCols
  · constructor
    · simp only [df_fingerprint_prog, if_false, Bool.false_eq_true, List.append_assoc]
      rw [getD_append_lt _ _ _ _ hr]
    · simp only [df_fingerprint_prog, df_fingerprint, if_false, Bool.false_eq_true]
      rw [getD_concat_length]
      simp only [asCells]
      rw [getD_concat_length]
      simp only [asStrs]
      rw [getD_concat_length]
      simp only [asStrs]
      rw [List.append_assoc, List.append_assoc, getD_append_lt _ _ _ _ hr]
  · constructor
    · simp only [df_fingerprint_prog, if_true, List.append_assoc]
      rw [getD_append_lt _ _ _ _ hr]
    · simp only [df_fingerprint_prog, df_fingerprint, if_true]
      rw [getD_concat_length]
      rw [getD_concat_length]
      rw [getD_concat_length]
      rw [getD_concat_length]
      simp only [asCells, asStrs]
      rw [List.append_assoc, List.append_assoc, List.append_assoc, getD_append_lt _ _ _ _ hr]

/-- Witness for C9 at a one-slot heap. -/
theorem C9_fingerprint_leaves_input_unchanged_witness :
    0 < ([Obj.cframe ⟨["a"], [[Cell.num 1]]⟩] : List Obj).length ∧
    ((df_fingerprint_prog [Obj.cframe ⟨["a"], [[Cell.num 1]]⟩] 0 true false true "<NA>").1.getD 0
        (Obj.cframe ⟨[], []⟩) =
      ([Obj.cframe ⟨["a"], [[Cell.num 1]]⟩] : List Obj).getD 0 (Obj.cframe ⟨[], []⟩) ∧
    (df_fingerprint_prog [Obj.cframe ⟨["a"], [[Cell.num 1]]⟩] 0 true false true "<NA>").2 =
      df_fingerprint (asCells (([Obj.cframe ⟨["a"], [[Cell.num 1]]⟩] : List Obj).getD 0
        (Obj.cframe ⟨[], []⟩))) true false true "<NA>") :=
  ⟨by decide,
    C9_fingerprint_leaves_input_unchanged [Obj.cframe ⟨["a"], [[Cell.num 1]]⟩] 0
      true false true "<NA>" (by decide)⟩
